import Mathlib

/-!
Verification development for the trio-resolution pipeline of the
obsidian-penrose plugin (`src/main.ts`).

The pipeline has two pure-logic pieces:

* `extractMetadata` scans a substance document line by line for the four
  comment tags (`-- alias:`, `-- domain:`, `-- style:`, `-- variation:`)
  and accumulates a metadata record;
* `getTrio` parses the metadata and fetches the referenced style and domain
  documents through an injected read capability, assembling the four-field
  trio.

The JavaScript regular expressions `--\s*alias:(.*)` etc. are embedded as
an explicit leftmost scanner over the character list of a line, and the
JavaScript whitespace class, `String.prototype.trim`, and `split("\n")` are
embedded directly.  The per-line callback is embedded twice from the same
definition `runCallbackWith`: once with `this` unbound as at runtime
(the function is a module-scope arrow function, so the property chain
`this.plugin.settings.aliases` faults), and once with the ambient chain
taken to denote the plugin's alias table, which is the reading the
surrounding feature set intends.
-/

namespace Penrose

/-- The JavaScript whitespace class: the characters matched by `\s` in a
regular expression, which is also the set removed by
`String.prototype.trim` (WhiteSpace together with LineTerminator). -/
def isJsWhitespace (c : Char) : Bool :=
  c = ' ' || c = '\t' || c = '\n' || c = '\x0b' || c = '\x0c' || c = '\r' ||
  c = '\u00A0' || c = '\u1680' || ('\u2000' ≤ c && c ≤ '\u200A') ||
  c = '\u2028' || c = '\u2029' || c = '\u202F' || c = '\u205F' ||
  c = '\u3000' || c = '\uFEFF'

/-- JavaScript line terminators, which `.` in a regular expression does not
match. -/
def isLineTerm (c : Char) : Bool :=
  c = '\n' || c = '\r' || c = '\u2028' || c = '\u2029'

/-- `String.prototype.trim`: remove leading and trailing JavaScript
whitespace. -/
def jsTrim (s : String) : String :=
  String.mk (((s.data.dropWhile isJsWhitespace).reverse.dropWhile
    isJsWhitespace).reverse)

/-- `substance.split("\n")` on the character list: split at every newline,
keeping empty segments (so the result is always nonempty). -/
def splitNl : List Char → List (List Char)
  | [] => [[]]
  | c :: cs =>
    if c = '\n' then [] :: splitNl cs
    else
      match splitNl cs with
      | r :: rs => (c :: r) :: rs
      | [] => [[c]]

/-- The ordered list of lines of a document, as in `substance.split("\n")`. -/
def linesOf (s : String) : List String :=
  (splitNl s.data).map String.mk

/-- Strip a literal tag from the front of a character list, returning the
remainder on success. -/
def stripTag : List Char → List Char → Option (List Char)
  | [], rest => some rest
  | _ :: _, [] => none
  | t :: ts, c :: cs => if c = t then stripTag ts cs else none

/-- The capture of the trailing `(.*)` group: everything up to the first
line terminator. -/
def takeCapture (r : List Char) : String :=
  String.mk (r.takeWhile (fun c => !(isLineTerm c)))

/-- One anchored attempt of the pattern `--\s*<tag>(.*)` at the head of `s`:
two hyphens, then a (maximal) run of whitespace, then the literal tag, with
the rest of the line captured.  The tag begins with a letter, so the greedy
whitespace run is the unique one. -/
def tryTagAt (tag : List Char) (s : List Char) : Option String :=
  match s with
  | c1 :: c2 :: rest =>
    if c1 = '-' ∧ c2 = '-' then
      (stripTag tag (rest.dropWhile isJsWhitespace)).map takeCapture
    else none
  | _ => none

/-- Leftmost search of `line.match` with pattern `--\s*<tag>(.*)`: try the anchored
pattern at each successive position, returning the first capture. -/
def scanTag (tag : List Char) : List Char → Option String
  | [] => none
  | c :: cs =>
    match tryTagAt tag (c :: cs) with
    | some cap => some cap
    | none => scanTag tag cs

/-- The literal tag of the pattern `--\s*alias:(.*)`. -/
def aliasTag : List Char := ['a', 'l', 'i', 'a', 's', ':']

/-- The literal tag of the pattern `--\s*domain:(.*)`. -/
def domainTag : List Char := ['d', 'o', 'm', 'a', 'i', 'n', ':']

/-- The literal tag of the pattern `--\s*style:(.*)`. -/
def styleTag : List Char := ['s', 't', 'y', 'l', 'e', ':']

/-- The literal tag of the pattern `--\s*variation:(.*)`. -/
def variationTag : List Char := ['v', 'a', 'r', 'i', 'a', 't', 'i', 'o', 'n', ':']

/-- `line.match(alias)` : the capture group of `--\s*alias:(.*)`, when the
line matches. -/
def aliasCapture (line : String) : Option String :=
  scanTag aliasTag line.data

/-- `line.match(domainRegex)` : the capture group of `--\s*domain:(.*)`. -/
def domainCapture (line : String) : Option String :=
  scanTag domainTag line.data

/-- `line.match(styleRegex)` : the capture group of `--\s*style:(.*)`. -/
def styleCapture (line : String) : Option String :=
  scanTag styleTag line.data

/-- `line.match(variationRegex)` : the capture group of
`--\s*variation:(.*)`. -/
def variationCapture (line : String) : Option String :=
  scanTag variationTag line.data

/-- An alias table entry (`interface Alias` in `src/main.ts`). -/
structure Alias where
  domain : String
  style : String
  deriving DecidableEq

/-- `interface AliasConfig`: a JavaScript object mapping alias names to
entries, embedded as an association list. -/
abbrev AliasConfig := List (String × Alias)

/-- Property access `aliases[aliasName]` on the alias object: `some` entry,
or `none` for the JavaScript `undefined` (which is falsy in the
`if (aliasConfig)` guard). -/
def lookupAlias : AliasConfig → String → Option Alias
  | [], _ => none
  | (k, v) :: rest, n => if k = n then some v else lookupAlias rest n

/-- `interface PenroseSettings` (the `mySetting` field is unused by the
pipeline). -/
structure PenroseSettings where
  mySetting : String
  aliases : AliasConfig
  deriving DecidableEq

/-- The plugin instance, as far as the pipeline reads it: the object whose
`settings.aliases` the alias branch means to consult. -/
structure PenrosePlugin where
  settings : PenroseSettings
  deriving DecidableEq

/-- The value of `this.plugin` as seen from inside `extractMetadata`.
`extractMetadata` is a module-scope arrow function, so its `this` is not a
plugin wrapper: top-level `this` is `undefined` in an ES module and the bare
`exports` object under CommonJS, and in both cases the `plugin` property
chain has no plugin behind it — evaluating
`this.plugin.settings.aliases[aliasName]` throws a `TypeError` before any
table is consulted. -/
def modulePlugin : Option PenrosePlugin := none

/-- The four accumulator variables of `extractMetadata`
(`let domain / style / variation / aliasName`), all initially empty. -/
structure Accs where
  domain : String
  style : String
  variation : String
  aliasName : String
  deriving DecidableEq

/-- The initial accumulator state. -/
def initAccs : Accs := { domain := "", style := "", variation := "", aliasName := "" }

/-- The error a per-line callback's promise is rejected with when the alias
branch faults. -/
inductive JsError where
  | typeError
  deriving DecidableEq

/-- The `metadata` record type returned by `extractMetadata`
(`type Meta` in `src/main.ts`; note it carries only three of the four
accumulators — `aliasName` is not returned). -/
structure Meta where
  style : String
  domain : String
  variation : String
  deriving DecidableEq

/-- The three trailing checks of the per-line callback: the `domainRegex`,
`styleRegex` and `variationRegex` matches, each overwriting its accumulator
with the trimmed capture. -/
def tagChecks (acc : Accs) (line : String) : Accs :=
  let a1 :=
    match domainCapture line with
    | some cap => { acc with domain := jsTrim cap }
    | none => acc
  let a2 :=
    match styleCapture line with
    | some cap => { a1 with style := jsTrim cap }
    | none => a1
  match variationCapture line with
  | some cap => { a2 with variation := jsTrim cap }
  | none => a2

/-- One run of the per-line callback of `extractMetadata`, parametrised by
the binding of `this.plugin`.  Returns the accumulator state when the
callback completes or throws, together with the error its promise is
rejected with, if any.  On an alias-matching line the callback first stores
the trimmed captured name, then evaluates
`this.plugin.settings.aliases[aliasName]`: with no plugin bound this throws,
so the remaining checks of that iteration never run; with a plugin bound the
table is consulted and, when the entry exists, both `domain` and `style` are
overwritten from it before the three trailing checks run. -/
def runCallbackWith (tp : Option PenrosePlugin) (acc : Accs) (line : String) :
    Accs × Option JsError :=
  match aliasCapture line with
  | some cap =>
    let acc1 := { acc with aliasName := jsTrim cap }
    match tp with
    | none => (acc1, some JsError.typeError)
    | some p =>
      let acc2 :=
        match lookupAlias p.settings.aliases (jsTrim cap) with
        | some a => { acc1 with domain := a.domain, style := a.style }
        | none => acc1
      (tagChecks acc2 line, none)
  | none => (tagChecks acc line, none)

/-- The callback as it actually runs: `this` carries no plugin. -/
def runCallback (acc : Accs) (line : String) : Accs × Option JsError :=
  runCallbackWith modulePlugin acc line

/-- The state transition `lines.forEach` performs for one line: the callback
runs synchronously (it contains no `await`), and the promise it returns —
rejected, on an alias line — is discarded by `forEach`, so only the
accumulator state survives. -/
def processLineRT (acc : Accs) (line : String) : Accs :=
  (runCallback acc line).1

/-- The accumulator state after `lines.forEach(...)` has processed the whole
document in order. -/
def parseAccs (substance : String) : Accs :=
  (linesOf substance).foldl processLineRT initAccs

/-- `extractMetadata`: split the substance into lines, run the per-line
callback over them in document order, and return the `style`, `domain` and
`variation` accumulators.  The callback's rejected promises are never
awaited, so the function always returns normally. -/
def extractMetadata (substance : String) : Meta :=
  let a := parseAccs substance
  { style := a.style, domain := a.domain, variation := a.variation }

/-- The text-level per-line transition in which the ambient chain
`this.plugin.settings.aliases` is taken to denote the given alias table —
the reading the plugin's alias feature and settings UI intend.  Same
callback body as `runCallback`, with `this.plugin` bound. -/
def processLineIntended (aliases : AliasConfig) (acc : Accs) (line : String) : Accs :=
  (runCallbackWith (some { settings := { mySetting := "default", aliases := aliases } })
    acc line).1

/-- `extractMetadata` under the intended reading of the alias lookup. -/
def extractMetadataIntended (aliases : AliasConfig) (substance : String) : Meta :=
  let a := (linesOf substance).foldl (processLineIntended aliases) initAccs
  { style := a.style, domain := a.domain, variation := a.variation }

/-- The trio bundle returned by `getTrio`. -/
structure Trio where
  substance : String
  style : String
  domain : String
  variation : String
  deriving DecidableEq

/-- `getTrio`: extract the metadata from the substance source, read the
style and domain documents through the injected capability, and assemble
the bundle.  The capability is specified never to reject — on failure it
returns the empty string — so it is embedded as a total function. -/
def getTrio (source : String) (readFile : String → String) : Trio :=
  let res := extractMetadata source
  let style := readFile res.style
  let domain := readFile res.domain
  { substance := source, style := style, domain := domain, variation := res.variation }

/-- One invocation of the read capability, recorded in a call log. -/
def callFetch (readFile : String → String) (log : List String) (ref : String) :
    String × List String :=
  (readFile ref, log ++ [ref])

/-- `getTrio` with every call to the read capability routed through
`callFetch`, so the second component is the exact sequence of references
fetched: first `res.style`, then `res.domain`, as in the two `await`s. -/
def getTrioTraced (source : String) (readFile : String → String) :
    Trio × List String :=
  let res := extractMetadata source
  let s1 := callFetch readFile [] res.style
  let s2 := callFetch readFile s1.2 res.domain
  ({ substance := source, style := s1.1, domain := s2.1, variation := res.variation },
    s2.2)

/-- How many of the four anchored patterns succeed at a given position. -/
def tagCountAt (s : List Char) : Nat :=
  (if (tryTagAt aliasTag s).isSome then 1 else 0) +
  (if (tryTagAt domainTag s).isSome then 1 else 0) +
  (if (tryTagAt styleTag s).isSome then 1 else 0) +
  (if (tryTagAt variationTag s).isSome then 1 else 0)

/-- How many of the four line-level patterns match a given line. -/
def tagCountLine (line : String) : Nat :=
  (if (aliasCapture line).isSome then 1 else 0) +
  (if (domainCapture line).isSome then 1 else 0) +
  (if (styleCapture line).isSome then 1 else 0) +
  (if (variationCapture line).isSome then 1 else 0)


/-- Mapping a function over an option does not change whether it is `some`. -/
theorem mapIsSome {α β : Type} (f : α → β) (o : Option α) :
    (o.map f).isSome = o.isSome := by
  cases o <;> rfl

/-- If stripping a nonempty tag succeeds, the input starts with the tag's
first character. -/
theorem stripTag_head {t : Char} {ts cs : List Char}
    (h : (stripTag (t :: ts) cs).isSome = true) : cs.head? = some t := by
  rcases cs with _ | ⟨c, rest⟩
  · simp [stripTag] at h
  · by_cases hc : c = t
    · simp [hc]
    · simp [stripTag, hc] at h

/-- A line matching none of the four patterns leaves the accumulator state
unchanged. -/
theorem no_match_step (acc : Accs) (line : String)
    (h1 : aliasCapture line = none) (h2 : domainCapture line = none)
    (h3 : styleCapture line = none) (h4 : variationCapture line = none) :
    processLineRT acc line = acc := by
  simp [processLineRT, runCallback, runCallbackWith, tagChecks, h1, h2, h3, h4]

/-- Folding the per-line transition over lines that each leave every state
unchanged returns the initial state. -/
theorem foldl_id_of_no_match :
    ∀ (l : List String),
      (∀ line ∈ l, ∀ acc : Accs, processLineRT acc line = acc) →
      ∀ acc : Accs, l.foldl processLineRT acc = acc
  | [], _, _ => rfl
  | x :: xs, h, acc => by
    rw [List.foldl_cons, h x (by simp)]
    exact foldl_id_of_no_match xs (fun line hl a => h line (by simp [hl]) a) acc

/-- C9: for every input document and every fetch capability, the `substance`
field of the trio returned by `getTrio` is identical to the original input
text. -/
theorem c9_substance_roundtrip (source : String) (readFile : String → String) :
    (getTrio source readFile).substance = source := rfl

/-- C8: `getTrio` invokes the fetch capability exactly once with the parsed
style reference and exactly once with the parsed domain reference — in that
order — for every document, including when either reference is the empty
string; and the traced run computes the same trio as `getTrio`. -/
theorem c8_fetch_call_trace (source : String) (readFile : String → String) :
    (getTrioTraced source readFile).2 =
      [(extractMetadata source).style, (extractMetadata source).domain] ∧
    (getTrioTraced source readFile).1 = getTrio source readFile :=
  ⟨rfl, rfl⟩

/-- C7: a fetch failure (the empty-string sentinel) on one reference leaves
the other field's fetched body intact: `getTrio` always returns a complete
trio in which a failed domain fetch yields an empty `domain` alongside the
fetched `style` body, and symmetrically. -/
theorem c7_fetch_failure_isolated (source : String) (readFile : String → String) :
    (readFile (extractMetadata source).domain = "" →
      getTrio source readFile =
        { substance := source, style := readFile (extractMetadata source).style,
          domain := "", variation := (extractMetadata source).variation }) ∧
    (readFile (extractMetadata source).style = "" →
      getTrio source readFile =
        { substance := source, style := "",
          domain := readFile (extractMetadata source).domain,
          variation := (extractMetadata source).variation }) := by
  constructor <;> intro h <;> simp [getTrio, h]

/-- Witness for C7 at a concrete document and capability for which the
domain fetch fails and the style fetch succeeds. -/
theorem c7_fetch_failure_isolated_w :
    getTrio "-- domain: d\n-- style: sty"
        (fun r => if r = "sty" then "STYLEBODY" else "") =
      { substance := "-- domain: d\n-- style: sty", style := "STYLEBODY",
        domain := "", variation := "" } := by
  have h := (c7_fetch_failure_isolated "-- domain: d\n-- style: sty"
    (fun r => if r = "sty" then "STYLEBODY" else "")).1 (by decide)
  rw [h]
  decide

/-- C1: concrete check of the positional-precedence claim.  Under the
text-level intended reading of the alias lookup, with AliasTable
`foo : (D1, S1)`, the document `-- alias: foo` before `-- domain: D2`
resolves to domain `D2` and style `S1`, and the reversed order resolves to
domain `D1` — the last line to set a field wins, regardless of tag kind.
At runtime, however, the alias line faults on `this.plugin` inside the
unawaited callback, so its table entry is never applied: both orders leave
the style accumulator empty and the domain accumulator at `D2`, diverging
from the claim in both directions. -/
theorem c1_precedence_concrete :
    extractMetadata "-- alias: foo\n-- domain: D2" =
      { style := "", domain := "D2", variation := "" } ∧
    extractMetadata "-- domain: D2\n-- alias: foo" =
      { style := "", domain := "D2", variation := "" } ∧
    extractMetadataIntended [("foo", { domain := "D1", style := "S1" })]
        "-- alias: foo\n-- domain: D2" =
      { style := "S1", domain := "D2", variation := "" } ∧
    extractMetadataIntended [("foo", { domain := "D1", style := "S1" })]
        "-- domain: D2\n-- alias: foo" =
      { style := "S1", domain := "D1", variation := "" } :=
  ⟨by decide, by decide, by decide, by decide⟩

/-- C2: concrete check of alias resolution.  Under the intended reading,
`-- alias: foo` with table entry `foo : (D1, S1)` sets the domain and style
accumulators to `D1` and `S1`.  At runtime the lookup faults on
`this.plugin` before the table is consulted, so the accumulators stay empty
and the trio assembly fetches the empty reference twice instead of `S1` and
`D1`. -/
theorem c2_alias_resolution_concrete :
    extractMetadata "-- alias: foo" = { style := "", domain := "", variation := "" } ∧
    (getTrioTraced "-- alias: foo" (fun _ => "")).2 = ["", ""] ∧
    extractMetadataIntended [("foo", { domain := "D1", style := "S1" })]
        "-- alias: foo" = { style := "S1", domain := "D1", variation := "" } :=
  ⟨by decide, by decide, by decide⟩

/-- C3: on every line matching the alias pattern the callback first stores
the trimmed captured name, then faults: `this` in the module-scope arrow
function carries no plugin (`modulePlugin = none`), so the chain
`this.plugin.settings.aliases` throws a `TypeError`.  The async callback's
promise is rejected with that error and never awaited, so the parser
proceeds normally while the domain, style and variation checks of that
iteration are skipped — the accumulators keep whatever other lines set. -/
theorem c3_alias_this_fault (acc : Accs) (line cap : String)
    (h : aliasCapture line = some cap) :
    modulePlugin = none ∧
    runCallback acc line =
      ({ acc with aliasName := jsTrim cap }, some JsError.typeError) ∧
    processLineRT acc line = { acc with aliasName := jsTrim cap } := by
  refine ⟨rfl, ?_, ?_⟩ <;>
    simp [runCallback, runCallbackWith, modulePlugin, processLineRT, h]

/-- Witness for C3 at the concrete line `-- alias: foo`. -/
theorem c3_alias_this_fault_w :
    processLineRT initAccs "-- alias: foo" =
      { domain := "", style := "", variation := "", aliasName := "foo" } := by
  have h := (c3_alias_this_fault initAccs "-- alias: foo" " foo" (by decide)).2.2
  rw [h]
  decide

/-- C4: for every alias table without an entry for the captured name,
processing a line matching the alias pattern leaves the domain and style
accumulators exactly as they were before that line; the failure is silent.
(At runtime the lookup faults on `this.plugin` before the table could even
be consulted, and the rejection is discarded, so the conclusion holds for
every table; the hypothesis records the claim's guard.) -/
theorem c4_unknown_alias_silent (t : AliasConfig) (n : String)
    (_ht : lookupAlias t n = none) (acc : Accs) (line cap : String)
    (h : aliasCapture line = some cap) (_hn : jsTrim cap = n) :
    (processLineRT acc line).domain = acc.domain ∧
    (processLineRT acc line).style = acc.style := by
  simp [processLineRT, runCallback, runCallbackWith, modulePlugin, h]

/-- Witness for C4: the table has no entry `bar`, and the line
`-- alias: bar` leaves nonempty domain and style accumulators untouched. -/
theorem c4_unknown_alias_silent_w :
    (processLineRT { domain := "A", style := "B", variation := "", aliasName := "" }
      "-- alias: bar").domain = "A" ∧
    (processLineRT { domain := "A", style := "B", variation := "", aliasName := "" }
      "-- alias: bar").style = "B" :=
  c4_unknown_alias_silent [("other", { domain := "d", style := "s" })] "bar"
    (by decide) { domain := "A", style := "B", variation := "", aliasName := "" }
    "-- alias: bar" " bar" (by decide) (by decide)

/-- C5: accumulators change only on lines matched by one of the four
patterns, and the stored value is always the capture after the tag's colon,
trimmed of surrounding whitespace; a line matching no pattern leaves every
accumulator unchanged.  (The tag keywords are case-sensitive and must be
followed immediately by a colon; the witness checks `-- Domain: x` matches
nothing.) -/
theorem c5_tag_forms_only (acc : Accs) (line : String) :
    ((aliasCapture line = none ∧ domainCapture line = none ∧
        styleCapture line = none ∧ variationCapture line = none) →
      processLineRT acc line = acc) ∧
    (∀ cap, aliasCapture line = some cap →
      processLineRT acc line = { acc with aliasName := jsTrim cap }) ∧
    (∀ cap, aliasCapture line = none → domainCapture line = some cap →
      (processLineRT acc line).domain = jsTrim cap) ∧
    (∀ cap, aliasCapture line = none → styleCapture line = some cap →
      (processLineRT acc line).style = jsTrim cap) ∧
    (∀ cap, aliasCapture line = none → variationCapture line = some cap →
      (processLineRT acc line).variation = jsTrim cap) := by
  refine ⟨?_, ?_, ?_, ?_, ?_⟩
  · rintro ⟨h1, h2, h3, h4⟩
    exact no_match_step acc line h1 h2 h3 h4
  · intro cap h1
    simp [processLineRT, runCallback, runCallbackWith, modulePlugin, h1]
  · intro cap h1 h2
    rcases h3 : styleCapture line with _ | s3 <;>
      rcases h4 : variationCapture line with _ | s4 <;>
        simp [processLineRT, runCallback, runCallbackWith, modulePlugin,
          tagChecks, h1, h2, h3, h4]
  · intro cap h1 h2
    rcases h3 : domainCapture line with _ | s3 <;>
      rcases h4 : variationCapture line with _ | s4 <;>
        simp [processLineRT, runCallback, runCallbackWith, modulePlugin,
          tagChecks, h1, h2, h3, h4]
  · intro cap h1 h2
    rcases h3 : domainCapture line with _ | s3 <;>
      rcases h4 : styleCapture line with _ | s4 <;>
        simp [processLineRT, runCallback, runCallbackWith, modulePlugin,
          tagChecks, h1, h2, h3, h4]

/-- Witness for C5: the case-mismatched line `-- Domain: x` matches no
pattern and leaves every accumulator unchanged. -/
theorem c5_tag_forms_only_w :
    processLineRT { domain := "a", style := "b", variation := "c", aliasName := "d" }
      " -- Domain: x" =
      { domain := "a", style := "b", variation := "c", aliasName := "d" } :=
  (c5_tag_forms_only
      { domain := "a", style := "b", variation := "c", aliasName := "d" }
      " -- Domain: x").1 ⟨by decide, by decide, by decide, by decide⟩

/-- C6: a document in which no line matches any of the four patterns parses
to the all-empty accumulator state, `extractMetadata` returns the record
with empty style, domain and variation (the internal `aliasName`
accumulator is also empty), and `getTrio` returns the capability's result
for the empty reference in both fields with the input as `substance`. -/
theorem c6_no_tags_empty_meta (source : String) (readFile : String → String)
    (h : ∀ line ∈ linesOf source,
      aliasCapture line = none ∧ domainCapture line = none ∧
      styleCapture line = none ∧ variationCapture line = none) :
    parseAccs source = initAccs ∧
    extractMetadata source = { style := "", domain := "", variation := "" } ∧
    getTrio source readFile =
      { substance := source, style := readFile "", domain := readFile "",
        variation := "" } := by
  have hp : parseAccs source = initAccs := by
    apply foldl_id_of_no_match
    intro line hl a
    obtain ⟨h1, h2, h3, h4⟩ := h line hl
    exact no_match_step a line h1 h2 h3 h4
  refine ⟨hp, ?_, ?_⟩
  · simp [extractMetadata, hp, initAccs]
  · simp [getTrio, extractMetadata, hp, initAccs]

/-- Witness for C6 at a concrete two-line document with no tags. -/
theorem c6_no_tags_empty_meta_w :
    getTrio "hello\nworld" (fun r => String.append "B" r) =
      { substance := "hello\nworld", style := "B", domain := "B",
        variation := "" } := by
  have h := (c6_no_tags_empty_meta "hello\nworld"
    (fun r => String.append "B" r) (by decide)).2.2
  rw [h]
  decide

/-- C10, counterexample: the line `-- domain: a -- style: b` matches two of
the four patterns at once — the domain pattern (capturing everything after
the first tag) and the style pattern — so a line may match more than one
pattern. -/
theorem c10_two_tags_one_line :
    tagCountLine "-- domain: a -- style: b" = 2 ∧
    domainCapture "-- domain: a -- style: b" = some " a -- style: b" ∧
    styleCapture "-- domain: a -- style: b" = some " b" :=
  ⟨by decide, by decide, by decide⟩

/-- C10, amended: at any single position of a line, at most one of the four
anchored patterns can succeed, because the tag keywords begin with distinct
characters; a line can still match several patterns when it contains
several `--`-marked fragments. -/
theorem c10_at_most_one_tag_per_position (s : List Char) : tagCountAt s ≤ 1 := by
  rcases s with _ | ⟨c1, _ | ⟨c2, rest⟩⟩
  · simp [tagCountAt, tryTagAt]
  · simp [tagCountAt, tryTagAt]
  · by_cases h : c1 = '-' ∧ c2 = '-'
    · simp only [tagCountAt, tryTagAt, if_pos h, mapIsSome]
      rcases hb1 : (stripTag aliasTag (rest.dropWhile isJsWhitespace)).isSome with _ | _
      · rcases hb2 : (stripTag domainTag (rest.dropWhile isJsWhitespace)).isSome with _ | _
        · rcases hb3 : (stripTag styleTag (rest.dropWhile isJsWhitespace)).isSome with _ | _
          · simp [hb1, hb2, hb3]
            split <;> omega
          · have hh3 := stripTag_head
              (show (stripTag ('s' :: ['t', 'y', 'l', 'e', ':'])
                (rest.dropWhile isJsWhitespace)).isSome = true from hb3)
            have hb4 : (stripTag variationTag (rest.dropWhile isJsWhitespace)).isSome = false := by
              rcases hb4 : (stripTag variationTag (rest.dropWhile isJsWhitespace)).isSome with _ | _
              · rfl
              · have hh4 := stripTag_head
                  (show (stripTag ('v' :: ['a', 'r', 'i', 'a', 't', 'i', 'o', 'n', ':'])
                    (rest.dropWhile isJsWhitespace)).isSome = true from hb4)
                exact absurd (hh3 ▸ hh4) (by decide)
            simp [hb1, hb2, hb3, hb4]
        · have hh2 := stripTag_head
            (show (stripTag ('d' :: ['o', 'm', 'a', 'i', 'n', ':'])
              (rest.dropWhile isJsWhitespace)).isSome = true from hb2)
          have hb3 : (stripTag styleTag (rest.dropWhile isJsWhitespace)).isSome = false := by
            rcases hb3 : (stripTag styleTag (rest.dropWhile isJsWhitespace)).isSome with _ | _
            · rfl
            · have hh3 := stripTag_head
                (show (stripTag ('s' :: ['t', 'y', 'l', 'e', ':'])
                  (rest.dropWhile isJsWhitespace)).isSome = true from hb3)
              exact absurd (hh2 ▸ hh3) (by decide)
          have hb4 : (stripTag variationTag (rest.dropWhile isJsWhitespace)).isSome = false := by
            rcases hb4 : (stripTag variationTag (rest.dropWhile isJsWhitespace)).isSome with _ | _
            · rfl
            · have hh4 := stripTag_head
                (show (stripTag ('v' :: ['a', 'r', 'i', 'a', 't', 'i', 'o', 'n', ':'])
                  (rest.dropWhile isJsWhitespace)).isSome = true from hb4)
              exact absurd (hh2 ▸ hh4) (by decide)
          simp [hb1, hb2, hb3, hb4]
      · have hh1 := stripTag_head
          (show (stripTag ('a' :: ['l', 'i', 'a', 's', ':'])
            (rest.dropWhile isJsWhitespace)).isSome = true from hb1)
        have hb2 : (stripTag domainTag (rest.dropWhile isJsWhitespace)).isSome = false := by
          rcases hb2 : (stripTag domainTag (rest.dropWhile isJsWhitespace)).isSome with _ | _
          · rfl
          · have hh2 := stripTag_head
              (show (stripTag ('d' :: ['o', 'm', 'a', 'i', 'n', ':'])
                (rest.dropWhile isJsWhitespace)).isSome = true from hb2)
            exact absurd (hh1 ▸ hh2) (by decide)
        have hb3 : (stripTag styleTag (rest.dropWhile isJsWhitespace)).isSome = false := by
          rcases hb3 : (stripTag styleTag (rest.dropWhile isJsWhitespace)).isSome with _ | _
          · rfl
          · have hh3 := stripTag_head
              (show (stripTag ('s' :: ['t', 'y', 'l', 'e', ':'])
                (rest.dropWhile isJsWhitespace)).isSome = true from hb3)
            exact absurd (hh1 ▸ hh3) (by decide)
        have hb4 : (stripTag variationTag (rest.dropWhile isJsWhitespace)).isSome = false := by
          rcases hb4 : (stripTag variationTag (rest.dropWhile isJsWhitespace)).isSome with _ | _
          · rfl
          · have hh4 := stripTag_head
              (show (stripTag ('v' :: ['a', 'r', 'i', 'a', 't', 'i', 'o', 'n', ':'])
                (rest.dropWhile isJsWhitespace)).isSome = true from hb4)
            exact absurd (hh1 ▸ hh4) (by decide)
        simp [hb1, hb2, hb3, hb4]
    · simp [tagCountAt, tryTagAt, if_neg h]

end Penrose
